import Mathlib

/-!
# Tronicscorp: products and users handlers

A shallow embedding of `handlers/products.go` and `handlers/users.go`.

* Go values become Lean structures; a Go `map[string]T` becomes an association
  list read with `GoMap.get` and written with `GoMap.set`.
* The document store is reached through the interface `dbiface.CollectionAPI`;
  it is embedded as a record of functions over an explicit store state, and
  every handler function returns, next to its Go results, the list of store
  calls it made and the store state it leaves.
* Library calls (`primitive.ObjectIDFromHex`, `encoding/json`, the validator
  tags, `bcrypt`, `jwt`) are embedded after their documented behaviour.
-/

namespace Tronicscorp

deriving instance DecidableEq for Except

/-! ## Errors -/

/-- One failed validation tag: the struct field and the tag that rejected it. -/
structure FieldError where
  field : String
  tag : String
deriving DecidableEq, Repr

/-- Go `error` values that the handlers produce or pass on. -/
inductive Error where
  /-- The value `mongo.ErrNoDocuments`. -/
  | ErrNoDocuments
  /-- The value `primitive.ErrInvalidHex`: the string is not 24 bytes long. -/
  | ErrInvalidHex
  /-- The error `hex.InvalidByteError`: a byte that is not a hex digit. -/
  | InvalidByteError
  /-- The error `echo.NewHTTPError(code, message)`. -/
  | HTTPError (code : Nat) (message : String)
  /-- The error `validator.ValidationErrors`. -/
  | ValidationErrors (errs : List FieldError)
  /-- An error of `encoding/json` (syntax error, type mismatch, custom unmarshaler). -/
  | JSONError (what : String)
  /-- Any other error value, e.g. one returned by the store driver, bcrypt or jwt. -/
  | Other (what : String)
deriving DecidableEq, Repr

/-- Status that echo's default error handler answers with: the code of an
`*echo.HTTPError`, and 500 for every other error value. -/
def Error.status : Error → Nat
  | .HTTPError code _ => code
  | _ => 500

/-! ## Go maps as association lists -/

/-- Read `m[k]`; `none` when the key is absent. -/
def GoMap.get {V : Type} : List (String × V) → String → Option V
  | [], _ => none
  | (k', v) :: rest, k => if k' = k then some v else GoMap.get rest k

/-- Write `m[k] = v`: replaces the entry of `k` when present, adds one otherwise. -/
def GoMap.set {V : Type} : List (String × V) → String → V → List (String × V)
  | [], k, v => [(k, v)]
  | (k', v') :: rest, k, v =>
    if k' = k then (k, v) :: rest else (k', v') :: GoMap.set rest k v

/-- Keys of the map. -/
def GoMap.keys {V : Type} (m : List (String × V)) : List String := m.map Prod.fst

/-! ## Object identifiers -/

/-- The type `primitive.ObjectID`: twelve bytes. -/
structure ObjectID where
  bytes : List Nat
deriving DecidableEq, Repr

/-- The value `primitive.NilObjectID`. -/
def NilObjectID : ObjectID := ⟨List.replicate 12 0⟩

/-- Value of one hex digit. -/
def hexDigit (c : Char) : Option Nat :=
  if '0' ≤ c ∧ c ≤ '9' then some (c.toNat - 48)
  else if 'a' ≤ c ∧ c ≤ 'f' then some (c.toNat - 87)
  else if 'A' ≤ c ∧ c ≤ 'F' then some (c.toNat - 55)
  else none

/-- The function `hex.Decode` on a string of even length. -/
def hexDecode : List Char → Option (List Nat)
  | [] => some []
  | [_] => none
  | a :: b :: rest =>
    match hexDigit a, hexDigit b, hexDecode rest with
    | some x, some y, some r => some ((16 * x + y) :: r)
    | _, _, _ => none

/-- The function `primitive.ObjectIDFromHex`: the string must be 24 bytes long and
all of them hex digits. -/
def ObjectIDFromHex (s : String) : Except Error ObjectID :=
  if s.utf8ByteSize ≠ 24 then .error .ErrInvalidHex
  else match hexDecode s.toList with
    | some bs => .ok ⟨bs⟩
    | none => .error .InvalidByteError

/-! ## Products and their validation -/

/-- The struct `Product` of `handlers/products.go`. -/
structure Product where
  ID : ObjectID
  Name : String
  Price : Int
  Currency : String
  Discount : Int
  Vendor : String
  Accessories : List String
  IsEssential : Bool
deriving DecidableEq, Repr

/-- The zero value `var product Product`. -/
def Product.zero : Product :=
  { ID := NilObjectID, Name := "", Price := 0, Currency := "", Discount := 0,
    Vendor := "", Accessories := [], IsEssential := false }

/-- Tag `validate:"required,max=10"` on `Name`. -/
def checkName (p : Product) : List FieldError :=
  if p.Name = "" then [⟨"Name", "required"⟩]
  else if 10 < p.Name.length then [⟨"Name", "max"⟩]
  else []

/-- Tag `validate:"required,max=200"` on `Price`. -/
def checkPrice (p : Product) : List FieldError :=
  if p.Price = 0 then [⟨"Price", "required"⟩]
  else if 200 < p.Price then [⟨"Price", "max"⟩]
  else []

/-- Tag `validate:"required,len=3"` on `Currency`. -/
def checkCurrency (p : Product) : List FieldError :=
  if p.Currency = "" then [⟨"Currency", "required"⟩]
  else if p.Currency.length ≠ 3 then [⟨"Currency", "len"⟩]
  else []

/-- Tag `validate:"required"` on `Vendor`. -/
def checkVendor (p : Product) : List FieldError :=
  if p.Vendor = "" then [⟨"Vendor", "required"⟩] else []

/-- The call `v.Struct(product)`: every tagged field is checked, the first failing
tag of each field is reported, and the result is `nil` when no field failed. -/
def vStruct (p : Product) : Option Error :=
  let errs := checkName p ++ checkPrice p ++ checkCurrency p ++ checkVendor p
  if errs = [] then none else some (.ValidationErrors errs)

/-- The method `ProductValidator.Validate`. -/
def ProductValidator.Validate (p : Product) : Option Error := vStruct p

/-! ## JSON payloads and `encoding/json` decoding into a `Product` -/

/-- A parsed JSON value. Number literals are split into integer literals and
literals with a fraction or an exponent, which is what decoding into a Go `int`
distinguishes. -/
inductive JSON where
  | null
  | bool (b : Bool)
  | num (n : Int)
  | frac (literal : String)
  | str (s : String)
  | arr (items : List JSON)
  | obj (members : List (String × JSON))

/-- Fields of `Product`. -/
inductive ProductField where
  | ID | Name | Price | Currency | Discount | Vendor | Accessories | IsEssential
deriving DecidableEq, Repr

/-- The `json:"..."` name of each field. -/
def ProductField.jsonName : ProductField → String
  | .ID => "_id"
  | .Name => "product_name"
  | .Price => "price"
  | .Currency => "currency"
  | .Discount => "discount"
  | .Vendor => "vendor"
  | .Accessories => "accessories"
  | .IsEssential => "is_essential"

/-- All fields, in declaration order. -/
def productFields : List ProductField :=
  [.ID, .Name, .Price, .Currency, .Discount, .Vendor, .Accessories, .IsEssential]

/-- Case folding of one character of an object key, as `encoding/json` folds it
when it compares the key with a field name: an ASCII capital goes to its small
letter, the long s (U+017F) to `s` and the Kelvin sign (U+212A) to `k`; these are
the only characters that fold onto an ASCII letter. -/
def foldChar (c : Char) : Char :=
  if c = Char.ofNat 0x17F then 's'
  else if c = Char.ofNat 0x212A then 'k'
  else c.toLower

/-- Field that an object key addresses: an exact match of the JSON name is
preferred, a match under case folding is accepted. -/
def findField (key : String) : Option ProductField :=
  match productFields.find? (fun f => f.jsonName = key) with
  | some f => some f
  | none => productFields.find? (fun f => f.jsonName = String.mk (key.toList.map foldChar))

/-- The error `json.UnmarshalTypeError`. -/
def typeError (field : String) : Error := .JSONError ("cannot unmarshal into field " ++ field)

/-- Store a JSON value into a `string` field: a string is stored, `null` has no
effect, anything else is a type error and leaves the field as it was. -/
def decodeString (field : String) (v : JSON) (old : String) : String × Option Error :=
  match v with
  | .str s => (s, none)
  | .null => (old, none)
  | _ => (old, some (typeError field))

/-- Store a JSON value into an `int` field (64 bits): an integer literal in range
is stored, `null` has no effect, anything else is a type error. -/
def decodeInt (field : String) (v : JSON) (old : Int) : Int × Option Error :=
  match v with
  | .num n =>
    if -9223372036854775808 ≤ n ∧ n ≤ 9223372036854775807 then (n, none)
    else (old, some (typeError field))
  | .null => (old, none)
  | _ => (old, some (typeError field))

/-- Store a JSON value into a `bool` field. -/
def decodeBool (field : String) (v : JSON) (old : Bool) : Bool × Option Error :=
  match v with
  | .bool b => (b, none)
  | .null => (old, none)
  | _ => (old, some (typeError field))

/-- The elements of a JSON array stored into a `string` slice that holds `old`:
the `i`-th value is stored into the `i`-th element, which is the stored one when
the slice has it and a zero value otherwise, so a `null` (or a value of another
type, a type error) leaves the stored element at that index. -/
def decodeElems (field : String) : List JSON → List String → List (String × Option Error)
  | [], _ => []
  | v :: rest, old => decodeString field v (old.headD "") :: decodeElems field rest old.tail

/-- First error of a list of optional errors. -/
def firstError : List (Option Error) → Option Error
  | [] => none
  | some e :: _ => some e
  | none :: rest => firstError rest

/-- Store a JSON value into a `[]string` field: an array is stored element by
element and the slice cut to the length of the array, `null` sets the slice to
nil, anything else is a type error. -/
def decodeStrings (field : String) (v : JSON) (old : List String) :
    List String × Option Error :=
  match v with
  | .arr items =>
    ((decodeElems field items old).map Prod.fst,
     firstError ((decodeElems field items old).map Prod.snd))
  | .null => ([], none)
  | _ => (old, some (typeError field))

/-- The text of an integer literal. -/
def intText (n : Int) : List Char :=
  match n with
  | .ofNat k => Nat.toDigits 10 k
  | .negSucc k => '-' :: Nat.toDigits 10 (k + 1)

/-- A character inside a string literal: the quote and the backslash are written
with a backslash before them. -/
def escapeChar (c : Char) : List Char :=
  if c = '"' then [Char.ofNat 92, '"']
  else if c = Char.ofNat 92 then [Char.ofNat 92, Char.ofNat 92]
  else [c]

/-- The text of a string literal. -/
def quoted (s : String) : List Char :=
  '"' :: s.toList.foldr (fun c acc => escapeChar c ++ acc) ['"']

mutual
/-- The text of a value in the request body, which `encoding/json` hands to a
custom unmarshaler. The body is taken in compact form: no blanks between
tokens, and no escapes in strings but those of the quote and the backslash. -/
def JSON.compact : JSON → List Char
  | .obj members => '{' :: compactMembers members
  | .arr items => '[' :: compactItems items
  | .str s => quoted s
  | .frac literal => literal.toList
  | .num n => intText n
  | .bool b => if b then ['t', 'r', 'u', 'e'] else ['f', 'a', 'l', 's', 'e']
  | .null => ['n', 'u', 'l', 'l']
/-- The text of the elements of an array, up to the closing bracket. -/
def compactItems : List JSON → List Char
  | [] => [']']
  | [x] => x.compact ++ [']']
  | x :: y :: rest => x.compact ++ ',' :: compactItems (y :: rest)
/-- The text of the members of an object, up to the closing brace. -/
def compactMembers : List (String × JSON) → List Char
  | [] => ['}']
  | [(k, x)] => quoted k ++ ':' :: x.compact ++ ['}']
  | (k, x) :: y :: rest => quoted k ++ ':' :: x.compact ++ ',' :: compactMembers (y :: rest)
end

/-- The UTF-8 bytes of a text. -/
def utf8Bytes (cs : List Char) : List Nat :=
  cs.foldr (fun c acc => (String.utf8EncodeChar c).map UInt8.toNat ++ acc) []

/-- The bytes that `hex.Decode` has written when it stops: one byte for each
pair of hex digits before the first pair that is not one. -/
def hexWritten : List Char → List Nat
  | a :: b :: rest =>
    match hexDigit a, hexDigit b with
    | some x, some y => (16 * x + y) :: hexWritten rest
    | _, _ => []
  | _ => []

/-- The hex text accepted by `ObjectID.UnmarshalJSON`, decoded into the
identifier `old`: the empty string gives `NilObjectID`; a string that is not 24
bytes long is an error; a string of 24 hex digits gives that identifier; and on
a byte that is not a hex digit `hex.Decode` returns an error after it has
overwritten the leading bytes of the identifier. -/
def objectIDFromText (s : String) (old : ObjectID) : ObjectID × Option Error :=
  if s.utf8ByteSize = 0 then (NilObjectID, none)
  else if s.utf8ByteSize ≠ 24 then (old, some (.JSONError "cannot unmarshal into an ObjectID"))
  else match hexDecode s.toList with
    | some bs => (⟨bs⟩, none)
    | none =>
      (⟨hexWritten s.toList ++ old.bytes.drop (hexWritten s.toList).length⟩,
        some .InvalidByteError)

/-- The method `ObjectID.UnmarshalJSON`, as the identifier after the call and the
error: `null` is ignored; a value whose text is exactly 12 bytes long is copied
byte for byte into the identifier; otherwise a string, or an extended-JSON
object with a string under `$oid`, is read as hex text, and anything else is an
error. -/
def ObjectID.UnmarshalJSON (v : JSON) (old : ObjectID) : ObjectID × Option Error :=
  match v with
  | .null => (old, none)
  | v =>
    if (utf8Bytes v.compact).length = 12 then (⟨utf8Bytes v.compact⟩, none)
    else
      match v with
      | .str s => objectIDFromText s old
      | .obj members =>
        match GoMap.get members.reverse "$oid" with
        | some (.str s) => objectIDFromText s old
        | _ => (old, some (.JSONError "not an extended JSON ObjectID"))
      | _ => (old, some (.JSONError "not an extended JSON ObjectID"))

/-- Result of storing one object member into the struct: the struct afterwards,
a type error that is saved while decoding goes on, or an unmarshaler error that
stops decoding at once. -/
structure Stored where
  product : Product
  saved : Option Error
  stop : Option Error

/-- Store the value of one object member into the field it addresses. -/
def storeField (p : Product) (f : ProductField) (v : JSON) : Stored :=
  match f with
  | .ID =>
    let r := ObjectID.UnmarshalJSON v p.ID
    ⟨{ p with ID := r.1 }, none, r.2⟩
  | .Name =>
    let r := decodeString "product_name" v p.Name
    ⟨{ p with Name := r.1 }, r.2, none⟩
  | .Price =>
    let r := decodeInt "price" v p.Price
    ⟨{ p with Price := r.1 }, r.2, none⟩
  | .Currency =>
    let r := decodeString "currency" v p.Currency
    ⟨{ p with Currency := r.1 }, r.2, none⟩
  | .Discount =>
    let r := decodeInt "discount" v p.Discount
    ⟨{ p with Discount := r.1 }, r.2, none⟩
  | .Vendor =>
    let r := decodeString "vendor" v p.Vendor
    ⟨{ p with Vendor := r.1 }, r.2, none⟩
  | .Accessories =>
    let r := decodeStrings "accessories" v p.Accessories
    ⟨{ p with Accessories := r.1 }, r.2, none⟩
  | .IsEssential =>
    let r := decodeBool "is_essential" v p.IsEssential
    ⟨{ p with IsEssential := r.1 }, r.2, none⟩

/-- Decode the members of a JSON object, in order, on top of the struct `p`.
Unknown keys are skipped; the first type error is remembered and returned at the
end; an unmarshaler error is returned at once. -/
def decodeMembers : List (String × JSON) → Product → Option Error → Product × Option Error
  | [], p, saved => (p, saved)
  | (k, v) :: rest, p, saved =>
    match findField k with
    | none => decodeMembers rest p saved
    | some f =>
      let r := storeField p f v
      match r.stop with
      | some e => (r.product, some e)
      | none => decodeMembers rest r.product (saved <|> r.saved)

/-- The call `json.NewDecoder(reqBody).Decode(&product)`. The request body is
`none` when it holds no well-formed JSON value. -/
def jsonDecode (reqBody : Option JSON) (product : Product) : Product × Option Error :=
  match reqBody with
  | none => (product, some (.JSONError "syntax error"))
  | some (.obj members) => decodeMembers members product none
  | some .null => (product, none)
  | some _ => (product, some (typeError "Product"))

/-! ## The document store -/

/-- A value of a `bson.M` filter built by the handlers. -/
inductive FilterValue where
  | str (s : String)
  | oid (id : ObjectID)
deriving DecidableEq, Repr

/-- A `bson.M` filter. -/
abbrev Filter := List (String × FilterValue)

/-- The value `*mongo.SingleResult` returned by `FindOne`, seen through `Decode`. -/
inductive SingleResult (D : Type) where
  /-- A document was found and decodes to `d`. -/
  | doc (d : D)
  /-- No document matches: `Decode` returns `mongo.ErrNoDocuments`. -/
  | noDocuments
  /-- Any other failure: `Decode` returns `e`, having filled the target up to `partly`. -/
  | failed (partly : D) (e : Error)

/-- The call `res.Decode(&target)`: the target after the call and the error. Every
target in the handlers is a zero value, so a decoded document is the whole
result; on `mongo.ErrNoDocuments` the target is left untouched. -/
def SingleResult.Decode {D : Type} (res : SingleResult D) (target : D) : D × Option Error :=
  match res with
  | .doc d => (d, none)
  | .noDocuments => (target, some .ErrNoDocuments)
  | .failed partly e => (partly, some e)

/-- The value `*mongo.Cursor` returned by `Find`, seen through `All`: the
documents it yields and the error of reading them. -/
structure Cursor (D : Type) where
  items : List D
  err : Option Error

/-- The value `InsertedID` of an insert result. -/
abbrev InsertedID := ObjectID

/-- Modelled from the spec: the interface `dbiface.CollectionAPI` (package
`dbiface` is not among the sources), with the store operations the spec lists:
find-one, find-many, insert-one, update-one. Reads leave the store state as it
is; writes return the new state. -/
structure CollectionAPI (σ D : Type) where
  Find : σ → Filter → Except Error (Cursor D)
  FindOne : σ → Filter → SingleResult D
  InsertOne : σ → D → σ × Except Error InsertedID
  UpdateOne : σ → Filter → D → σ × Option Error

/-- A call on the collection, with its arguments. `updateOne f d` stands for
`UpdateOne(ctx, f, bson.M{"$set": d})`. -/
inductive Call (D : Type) where
  | find (filter : Filter)
  | findOne (filter : Filter)
  | insertOne (document : D)
  | updateOne (filter : Filter) (set : D)
deriving DecidableEq, Repr

/-- Whether the call is an `UpdateOne`. -/
def Call.isUpdateOne {D : Type} : Call D → Bool
  | .updateOne _ _ => true
  | _ => false

/-- Whether the call is an `InsertOne`. -/
def Call.isInsertOne {D : Type} : Call D → Bool
  | .insertOne _ => true
  | _ => false

/-- What a handler function leaves behind: its Go results `(val, err)`, the
store calls it made in order, and the store state after them. -/
structure Ret (σ D α : Type) where
  val : α
  err : Option Error
  calls : List (Call D)
  state : σ

/-! ## `handlers/products.go` -/

/-- The loop `for k, v := range q { filter[k] = v[0] }` of `findProducts`. The
result is `none` when `v[0]` indexes an empty slice (a run-time panic). -/
def rangeFilter : List (String × List String) → Filter → Option Filter
  | [], filter => some filter
  | (_, []) :: _, _ => none
  | (k, v0 :: _) :: rest, filter => rangeFilter rest (GoMap.set filter k (.str v0))

/-- The tail of `findProducts`: `collection.Find` and `cursor.All`. -/
def findQuery {σ : Type} (collection : CollectionAPI σ Product) (s : σ) (filter : Filter) :
    Ret σ Product (List Product) :=
  match collection.Find s filter with
  | .error err => ⟨[], some err, [.find filter], s⟩
  | .ok cursor =>
    match cursor.err with
    | some err => ⟨cursor.items, some err, [.find filter], s⟩
    | none => ⟨cursor.items, none, [.find filter], s⟩

/-- The function `findProducts`. The result is `none` when the function panics
(an empty value list in `q`, or an `_id` entry that is not a string). -/
def findProducts {σ : Type} (q : List (String × List String))
    (collection : CollectionAPI σ Product) (s : σ) : Option (Ret σ Product (List Product)) :=
  match rangeFilter q [] with
  | none => none
  | some filter =>
    match GoMap.get filter "_id" with
    | none => some (findQuery collection s filter)
    | some (.oid _) => none
    | some (.str hex) =>
      match ObjectIDFromHex hex with
      | .error err => some ⟨[], some err, [], s⟩
      | .ok docID => some (findQuery collection s (GoMap.set filter "_id" (.oid docID)))

/-- The loop of `insertProducts`, from the `n`-th call of `primitive.NewObjectID`
on; `NewObjectID k` is the identifier that the `k`-th call returns. -/
def insertLoop {σ : Type} (NewObjectID : Nat → ObjectID) (collection : CollectionAPI σ Product) :
    List Product → Nat → σ → List InsertedID → List (Call Product) →
    Ret σ Product (List InsertedID)
  | [], _, s, insertedIDs, calls => ⟨insertedIDs, none, calls, s⟩
  | product :: rest, n, s, insertedIDs, calls =>
    let product := { product with ID := NewObjectID n }
    match collection.InsertOne s product with
    | (s', .error err) => ⟨[], some err, calls ++ [.insertOne product], s'⟩
    | (s', .ok insertedID) =>
      insertLoop NewObjectID collection rest (n + 1) s' (insertedIDs ++ [insertedID])
        (calls ++ [.insertOne product])

/-- The function `insertProducts`. -/
def insertProducts {σ : Type} (NewObjectID : Nat → ObjectID) (products : List Product)
    (collection : CollectionAPI σ Product) (s : σ) : Ret σ Product (List InsertedID) :=
  insertLoop NewObjectID collection products 0 s [] []

/-- A response written with `c.JSON(status, body)`. -/
structure Response (β : Type) where
  status : Nat
  body : β
deriving DecidableEq, Repr

/-- The loop `for _, product := range products { c.Validate(product) }` of
`CreateProducts`: the first validation error, if any. -/
def validateAll : List Product → Option Error
  | [] => none
  | product :: rest =>
    match ProductValidator.Validate product with
    | some err => some err
    | none => validateAll rest

/-- The handler `ProductHandler.CreateProducts`. `bind` is the outcome of
`c.Bind(&products)`. The value is the response written, if any; the error is the
one the handler returns. -/
def CreateProducts {σ : Type} (bind : Except Error (List Product))
    (NewObjectID : Nat → ObjectID) (collection : CollectionAPI σ Product) (s : σ) :
    Ret σ Product (Option (Response (List InsertedID))) :=
  match bind with
  | .error err => ⟨none, some err, [], s⟩
  | .ok products =>
    match validateAll products with
    | some err => ⟨none, some err, [], s⟩
    | none =>
      let r := insertProducts NewObjectID products collection s
      match r.err with
      | some err => ⟨none, some err, r.calls, r.state⟩
      | none => ⟨some ⟨201, r.val⟩, none, r.calls, r.state⟩

/-- The function `modifyProduct`. -/
def modifyProduct {σ : Type} (id : String) (reqBody : Option JSON)
    (collection : CollectionAPI σ Product) (s : σ) : Ret σ Product Product :=
  let product := Product.zero
  match ObjectIDFromHex id with
  | .error err => ⟨product, some err, [], s⟩
  | .ok docID =>
    let filter : Filter := [("_id", .oid docID)]
    let res := collection.FindOne s filter
    match res.Decode product with
    | (product, some err) => ⟨product, some err, [.findOne filter], s⟩
    | (product, none) =>
      match jsonDecode reqBody product with
      | (product, some err) => ⟨product, some err, [.findOne filter], s⟩
      | (product, none) =>
        match vStruct product with
        | some err => ⟨product, some err, [.findOne filter], s⟩
        | none =>
          match collection.UpdateOne s filter product with
          | (s', some err) =>
            ⟨product, some err, [.findOne filter, .updateOne filter product], s'⟩
          | (s', none) =>
            ⟨product, none, [.findOne filter, .updateOne filter product], s'⟩

/-- The handler `ProductHandler.UpdateProduct`. -/
def UpdateProduct {σ : Type} (id : String) (reqBody : Option JSON)
    (collection : CollectionAPI σ Product) (s : σ) :
    Ret σ Product (Option (Response Product)) :=
  let r := modifyProduct id reqBody collection s
  match r.err with
  | some err => ⟨none, some err, r.calls, r.state⟩
  | none => ⟨some ⟨200, r.val⟩, none, r.calls, r.state⟩

/-! ## `handlers/users.go` -/

/-- The struct `User`. -/
structure User where
  Email : String
  Password : String
deriving DecidableEq, Repr

/-- The zero value `var user User`. -/
def User.zero : User := { Email := "", Password := "" }

/-- The two functions of `golang.org/x/crypto/bcrypt` that the handlers call. -/
structure Bcrypt where
  GenerateFromPassword : String → Nat → Except Error String
  CompareHashAndPassword : String → String → Option Error

/-- The function `isCredValid`. -/
def isCredValid (bcrypt : Bcrypt) (givenPwd storedPwd : String) : Bool :=
  match bcrypt.CompareHashAndPassword storedPwd givenPwd with
  | some _ => false
  | none => true

/-- The function `insertUser`. -/
def insertUser {σ : Type} (bcrypt : Bcrypt) (user : User)
    (collection : CollectionAPI σ User) (s : σ) : Ret σ User (Option InsertedID) :=
  let newUser := User.zero
  let filter : Filter := [("username", .str user.Email)]
  let res := collection.FindOne s filter
  let (newUser, err) := res.Decode newUser
  if err ≠ none ∧ err ≠ some .ErrNoDocuments then
    ⟨none, some (.HTTPError 500 "Unable to decode user"), [.findOne filter], s⟩
  else if newUser.Email ≠ "" then
    ⟨none, some (.HTTPError 400 "User already exists"), [.findOne filter], s⟩
  else
    match bcrypt.GenerateFromPassword user.Password 8 with
    | .error _ =>
      ⟨none, some (.HTTPError 500 "Unable to process the password"), [.findOne filter], s⟩
    | .ok hashedPassword =>
      let user := { user with Password := hashedPassword }
      match collection.InsertOne s user with
      | (s', .error _) =>
        ⟨none, some (.HTTPError 500 "Unable to insert user"),
          [.findOne filter, .insertOne user], s'⟩
      | (s', .ok insertedID) =>
        ⟨some insertedID, none, [.findOne filter, .insertOne user], s'⟩

/-- The function `authenticateUser`. -/
def authenticateUser {σ : Type} (bcrypt : Bcrypt) (reqUser : User)
    (collection : CollectionAPI σ User) (s : σ) : Ret σ User User :=
  let storedUser := User.zero
  let filter : Filter := [("username", .str reqUser.Email)]
  let res := collection.FindOne s filter
  let (storedUser, err) := res.Decode storedUser
  if err ≠ none ∧ err ≠ some .ErrNoDocuments then
    ⟨storedUser, some (.HTTPError 422 "Unable to decode user"), [.findOne filter], s⟩
  else if err = some .ErrNoDocuments then
    ⟨storedUser, some (.HTTPError 404 "User does not exsists"), [.findOne filter], s⟩
  else if ¬ isCredValid bcrypt reqUser.Password storedUser.Password then
    ⟨storedUser, some (.HTTPError 401 "Credentials invalid"), [.findOne filter], s⟩
  else
    ⟨{ Email := storedUser.Email, Password := "" }, none, [.findOne filter], s⟩

/-- A value of a `jwt.MapClaims` entry. -/
inductive ClaimValue where
  | bool (b : Bool)
  | str (s : String)
  | int (n : Int)
deriving DecidableEq, Repr

/-- The type `jwt.MapClaims`. -/
abbrev MapClaims := List (String × ClaimValue)

/-- An instant, as nanoseconds since the Unix epoch. -/
structure Time where
  ns : Int
deriving DecidableEq, Repr

/-- The constant `time.Minute`, in nanoseconds. -/
def Minute : Int := 60 * 1000000000

/-- The method `Time.Add`. -/
def Time.Add (t : Time) (d : Int) : Time := ⟨t.ns + d⟩

/-- The method `Time.Unix`: whole seconds since the epoch, rounded down. -/
def Time.Unix (t : Time) : Int := t.ns / 1000000000

/-- Modelled from the spec: the struct `config.Properties` (package `config` is
not among the sources); of its fields the handlers read the signing secret. -/
structure Properties where
  JwtTokenSecret : String
deriving DecidableEq, Repr

/-- What `CreateToken` takes from its surroundings: the outcome of
`cleanenv.ReadEnv(&cfg)`, the clock `time.Now()`, and the HS256 signature
`jwt.NewWithClaims(jwt.SigningMethodHS256, claims).SignedString(key)`. -/
structure TokenEnv where
  ReadEnv : Except Error Properties
  Now : Time
  SignedString : MapClaims → String → Except Error String

/-- A run of a function that may end the process with `log.Fatalf`. -/
inductive Run (α : Type) where
  | exited (message : String)
  | returned (a : α)

/-- The function `CreateToken`. -/
def CreateToken (env : TokenEnv) (username : String) : Run (String × Option Error) :=
  match env.ReadEnv with
  | .error _ => .exited "Configuration cannot be read"
  | .ok cfg =>
    let claims : MapClaims := []
    let claims := GoMap.set claims "authozied" (.bool true)
    let claims := GoMap.set claims "username" (.str username)
    let claims := GoMap.set claims "exp" (.int (env.Now.Add (Minute * 15)).Unix)
    match env.SignedString claims cfg.JwtTokenSecret with
    | .error err => .returned ("", some err)
    | .ok token => .returned (token, none)

/-- The call `v.Struct(user)`: tags `required,email` on `Email` and
`required,min=8,max=300` on `Password`. The `email` tag is the validator
library's pattern, taken as `isEmail`. -/
def userStruct (isEmail : String → Bool) (u : User) : Option Error :=
  let email : List FieldError :=
    if u.Email = "" then [⟨"Email", "required"⟩]
    else if ¬ isEmail u.Email then [⟨"Email", "email"⟩]
    else []
  let password : List FieldError :=
    if u.Password = "" then [⟨"Password", "required"⟩]
    else if u.Password.length < 8 then [⟨"Password", "min"⟩]
    else if 300 < u.Password.length then [⟨"Password", "max"⟩]
    else []
  if email ++ password = [] then none else some (.ValidationErrors (email ++ password))

/-- The handler `UserHandler.CreateUser`. `bind` is the outcome of `c.Bind(&user)`. -/
def CreateUser {σ : Type} (isEmail : String → Bool) (bcrypt : Bcrypt)
    (bind : Except Error User) (collection : CollectionAPI σ User) (s : σ) :
    Ret σ User (Option (Response (Option InsertedID))) :=
  match bind with
  | .error err => ⟨none, some err, [], s⟩
  | .ok user =>
    match userStruct isEmail user with
    | some err => ⟨none, some err, [], s⟩
    | none =>
      let r := insertUser bcrypt user collection s
      match r.err with
      | some err => ⟨none, some err, r.calls, r.state⟩
      | none => ⟨some ⟨201, r.val⟩, none, r.calls, r.state⟩

/-- The response of `AuthUser`: the status, the header `x-auth-token` and the
JSON body. -/
structure AuthResponse where
  status : Nat
  token : String
  body : User
deriving DecidableEq, Repr

/-- The handler `UserHandler.AuthUser`. `bind` is the outcome of `c.Bind(&user)`. -/
def AuthUser {σ : Type} (isEmail : String → Bool) (bcrypt : Bcrypt) (env : TokenEnv)
    (bind : Except Error User) (collection : CollectionAPI σ User) (s : σ) :
    Run (Ret σ User (Option AuthResponse)) :=
  match bind with
  | .error _ =>
    .returned ⟨none, some (.HTTPError 422 "Unable to parse the request payload"), [], s⟩
  | .ok user =>
    match userStruct isEmail user with
    | some _ =>
      .returned ⟨none, some (.HTTPError 400 "Unable to validate the\trequest payload"), [], s⟩
    | none =>
      let r := authenticateUser bcrypt user collection s
      match r.err with
      | some err => .returned ⟨none, some err, r.calls, r.state⟩
      | none =>
        let user := r.val
        match CreateToken env user.Email with
        | .exited message => .exited message
        | .returned (_, some err) => .returned ⟨none, some err, r.calls, r.state⟩
        | .returned (token, none) =>
          .returned ⟨some ⟨200, "Bearer " ++ token, { Email := user.Email, Password := "" }⟩,
            none, r.calls, r.state⟩

/-! ## An in-memory document store

A collection kept as the list of its documents, answering the calls of
`CollectionAPI` the way a MongoDB collection does: equality filters, `$set` on
the first matching document, `_id` immutable, fields tagged `omitempty` left out
of the update when empty, and a unique index on `username` for users. -/

/-- Whether a product satisfies every equality clause of the filter. A string
value never equals a number, a boolean or a missing field. -/
def productMatches (filter : Filter) (p : Product) : Bool :=
  filter.all fun kv =>
    match kv with
    | ("_id", .oid id) => p.ID = id
    | ("product_name", .str x) => p.Name = x
    | ("currency", .str x) => p.Currency = x
    | ("vendor", .str x) => p.Vendor = x
    | ("accessories", .str x) => p.Accessories.contains x
    | _ => false

/-- The update `$set` of a product on the first document matching the filter. -/
def setFirst (filter : Filter) (d : Product) : List Product → List Product × Option Error
  | [] => ([], none)
  | x :: rest =>
    if productMatches filter x then
      if d.ID ≠ NilObjectID ∧ d.ID ≠ x.ID then
        (x :: rest, some (.Other "the immutable field _id would be modified"))
      else
        ({ d with ID := x.ID,
                  Accessories := if d.Accessories = [] then x.Accessories else d.Accessories }
          :: rest, none)
    else
      ((x :: (setFirst filter d rest).1), (setFirst filter d rest).2)

/-- The in-memory collection of products. -/
def memProducts : CollectionAPI (List Product) Product where
  Find s filter := .ok ⟨s.filter (productMatches filter), none⟩
  FindOne s filter :=
    match s.find? (productMatches filter) with
    | some d => .doc d
    | none => .noDocuments
  InsertOne s d :=
    if (s.map Product.ID).contains d.ID then (s, .error (.Other "duplicate key"))
    else (s ++ [d], .ok d.ID)
  UpdateOne s filter d := setFirst filter d s

/-- Whether a user record satisfies every equality clause of the filter. -/
def userMatches (filter : Filter) (u : User) : Bool :=
  filter.all fun kv =>
    match kv with
    | ("username", .str x) => u.Email = x
    | ("password", .str x) => u.Password = x
    | _ => false

/-- The in-memory collection of users, with the unique index on `username` that
`main.go` creates; the identifier assigned to the `n`-th record is the number
`n` in twelve bytes. -/
def memUsers : CollectionAPI (List User) User where
  Find s filter := .ok ⟨s.filter (userMatches filter), none⟩
  FindOne s filter :=
    match s.find? (userMatches filter) with
    | some d => .doc d
    | none => .noDocuments
  InsertOne s d :=
    if (s.map User.Email).contains d.Email then (s, .error (.Other "duplicate key"))
    else (s ++ [d], .ok ⟨List.replicate 11 0 ++ [s.length % 256]⟩)
  UpdateOne s _ _ := (s, none)

/-- A stand-in for bcrypt on concrete inputs: the digest of `p` is `"$2a$08$" ++ p`. -/
def toyBcrypt : Bcrypt where
  GenerateFromPassword p _ := .ok ("$2a$08$" ++ p)
  CompareHashAndPassword h p :=
    if h = "$2a$08$" ++ p then none else some (.Other "hashedPassword is not the hash of the given password")

/-! ## The field-level merge, in the spec's words -/

/-- The data fields of a product: every field but the identifier. -/
def dataFields : List ProductField :=
  [.Name, .Price, .Currency, .Discount, .Vendor, .Accessories, .IsEssential]

/-- Whether a JSON value is a string. -/
def JSON.isStr : JSON → Bool
  | .str _ => true
  | _ => false

/-- Whether a payload value has the JSON type of the field it names, `null`
included: a string for the text fields, an integer literal within 64 bits for
the number fields, a boolean for the flag, an array of strings for the list. -/
def fits : ProductField → JSON → Bool
  | .ID, _ => false
  | .Name, v | .Currency, v | .Vendor, v =>
    match v with
    | .str _ => true
    | .null => true
    | _ => false
  | .Price, v | .Discount, v =>
    match v with
    | .num n => decide (-9223372036854775808 ≤ n ∧ n ≤ 9223372036854775807)
    | .null => true
    | _ => false
  | .IsEssential, v =>
    match v with
    | .bool _ => true
    | .null => true
    | _ => false
  | .Accessories, v =>
    match v with
    | .arr items => items.all JSON.isStr
    | .null => true
    | _ => false

/-- A payload that names data fields only, each with a value of the field's
type. -/
def wellTyped (members : List (String × JSON)) : Bool :=
  members.all fun kv => dataFields.any fun f => decide (kv.1 = f.jsonName) && fits f kv.2

/-- The text of a JSON string, and the empty text for anything else. -/
def JSON.text : JSON → String
  | .str x => x
  | _ => ""

/-- The merge of §4.5 step 3, field by field: a field named in the payload with
a value other than `null` takes the payload's value; a field that the payload
does not name, or names with `null`, keeps the stored value, except that a
`null` list of accessories empties the list. The identifier is the stored one. -/
def mergedProduct (P : Product) (members : List (String × JSON)) : Product :=
  { ID := P.ID
    Name := match GoMap.get members "product_name" with
      | some (.str x) => x
      | _ => P.Name
    Price := match GoMap.get members "price" with
      | some (.num n) => n
      | _ => P.Price
    Currency := match GoMap.get members "currency" with
      | some (.str x) => x
      | _ => P.Currency
    Discount := match GoMap.get members "discount" with
      | some (.num n) => n
      | _ => P.Discount
    Vendor := match GoMap.get members "vendor" with
      | some (.str x) => x
      | _ => P.Vendor
    Accessories := match GoMap.get members "accessories" with
      | some (.arr items) => items.map JSON.text
      | some .null => []
      | _ => P.Accessories
    IsEssential := match GoMap.get members "is_essential" with
      | some (.bool b) => b
      | _ => P.IsEssential }

/-- Hex digit of a number below 16. -/
def hexChar (n : Nat) : Char := "0123456789abcdef".toList.getD n '0'

/-- The method `ObjectID.Hex`. -/
def ObjectID.Hex (id : ObjectID) : String :=
  String.mk (id.bytes.foldr (fun b acc => hexChar (b / 16) :: hexChar (b % 16) :: acc) [])

/-- The JSON value that a field of a product is written as. -/
def Product.fieldValue (p : Product) : ProductField → JSON
  | .ID => .str p.ID.Hex
  | .Name => .str p.Name
  | .Price => .num p.Price
  | .Currency => .str p.Currency
  | .Discount => .num p.Discount
  | .Vendor => .str p.Vendor
  | .Accessories => .arr (p.Accessories.map JSON.str)
  | .IsEssential => .bool p.IsEssential

/-- The merge as C1 words it: every field named in the payload has the payload's
value in `r`, and every other field has the stored value. -/
def NamedFieldsTakePayloadValue (P : Product) (members : List (String × JSON))
    (r : Product) : Prop :=
  ∀ f : ProductField,
    match GoMap.get members f.jsonName with
    | some v => r.fieldValue f = v
    | none => r.fieldValue f = P.fieldValue f

/-- The failures that C2 lists, in the order `modifyProduct` meets them: the
identifier does not parse, the current document cannot be fetched and decoded,
the payload does not decode on top of it, or the merged product fails
validation. -/
def failsBeforeWrite {σ : Type} (id : String) (reqBody : Option JSON)
    (collection : CollectionAPI σ Product) (s : σ) : Bool :=
  match ObjectIDFromHex id with
  | .error _ => true
  | .ok docID =>
    let fetched := (collection.FindOne s [("_id", .oid docID)]).Decode Product.zero
    let merged := jsonDecode reqBody fetched.1
    fetched.2.isSome || merged.2.isSome || (vStruct merged.1).isSome

/-- The first supplied value of a query key. -/
def firstValue (v : List String) : String := v.headD ""

/-- The equality clause of a query key: its first value, unchanged. -/
def plainClause (kv : String × List String) : String × FilterValue :=
  (kv.1, .str (firstValue kv.2))

/-- The equality clauses of a query whose `_id` parses to `docID`: the key `_id`
is mapped to the parsed identifier, every other key to its first value. -/
def clauseWithID (docID : ObjectID) (kv : String × List String) : String × FilterValue :=
  (kv.1, if kv.1 = "_id" then .oid docID else .str (firstValue kv.2))

/-- The products as `insertProducts` inserts them: the `i`-th product of the
request with its identifier replaced by the one that the `(n + i)`-th call of
`primitive.NewObjectID` returns. -/
def assignIDs (NewObjectID : Nat → ObjectID) : List Product → Nat → List Product
  | [], _ => []
  | product :: rest, n => { product with ID := NewObjectID n } :: assignIDs NewObjectID rest (n + 1)

/-- The store after the documents have been inserted one after the other, each
`InsertOne` acting on the state that the one before it left. -/
def storeAfterInserts {σ : Type} (collection : CollectionAPI σ Product) :
    List Product → σ → σ
  | [], s => s
  | d :: rest, s => storeAfterInserts collection rest (collection.InsertOne s d).1

/-- The answers of the store to the inserts of the documents one after the
other, each `InsertOne` acting on the state that the one before it left. -/
def insertAnswers {σ : Type} (collection : CollectionAPI σ Product) :
    List Product → σ → List (Except Error InsertedID)
  | [], _ => []
  | d :: rest, s =>
    (collection.InsertOne s d).2 :: insertAnswers collection rest (collection.InsertOne s d).1

/-- Every store insert of the run succeeds: `InsertOne` returns no error for
each product in turn, from the store state that the inserts before it left. -/
def everyInsertSucceeds {σ : Type} (NewObjectID : Nat → ObjectID)
    (collection : CollectionAPI σ Product) : List Product → Nat → σ → Bool
  | [], _, _ => true
  | product :: rest, n, s =>
    match collection.InsertOne s { product with ID := NewObjectID n } with
    | (s', .ok _) => everyInsertSucceeds NewObjectID collection rest (n + 1) s'
    | (_, .error _) => false

/-! ## Concrete inputs -/

/-- The identifier `aaaaaaaaaaaaaaaaaaaaaaaa`. -/
def idA : ObjectID := ⟨List.replicate 12 170⟩

/-- The identifier `bbbbbbbbbbbbbbbbbbbbbbbb`. -/
def idB : ObjectID := ⟨List.replicate 12 187⟩

/-- The stored product of the spec's update example: name `A`, price 10,
currency `USD`, vendor `V`. -/
def productA : Product :=
  { ID := idA, Name := "A", Price := 10, Currency := "USD", Discount := 0,
    Vendor := "V", Accessories := [], IsEssential := false }

/-- The product of the test `test create product`. -/
def vivo : Product :=
  { ID := NilObjectID, Name := "vivo", Price := 200, Currency := "USD", Discount := 0,
    Vendor := "samsung", Accessories := ["charger", "manual"], IsEssential := false }

/-- A source of identifiers for concrete runs: the `n`-th one is the number
`n + 1` in twelve bytes. -/
def countingIDs (n : Nat) : ObjectID := ⟨List.replicate 11 0 ++ [(n + 1) % 256]⟩

/-- A users collection whose lookups fail with a driver error. -/
def faultyUsers : CollectionAPI Unit User where
  Find _ _ := .error (.Other "connection refused")
  FindOne _ _ := .failed User.zero (.Other "connection refused")
  InsertOne s _ := (s, .error (.Other "connection refused"))
  UpdateOne s _ _ := (s, some (.Other "connection refused"))

/-- The registered user of the spec's end-to-end example, as stored. -/
def storedAB : User := { Email := "a@b.com", Password := "$2a$08$12345678" }

/-- A token environment for concrete runs: a configured secret, the clock at
second 1000, and a signer that returns the subject it is given. -/
def toyEnv : TokenEnv where
  ReadEnv := .ok ⟨"secret"⟩
  Now := ⟨1000000000000⟩
  SignedString claims _ :=
    match GoMap.get claims "username" with
    | some (.str u) => .ok ("token-for-" ++ u)
    | _ => .error (.Other "no subject")

/-- A product with a negative price. -/
def negativePrice : Product := { productA with Price := -5 }

/-! ## Validation (C4) -/

theorem checkName_nil (p : Product) :
    checkName p = [] ↔ p.Name ≠ "" ∧ p.Name.length ≤ 10 := by
  unfold checkName
  by_cases h1 : p.Name = ""
  · simp [h1]
  · by_cases h2 : 10 < p.Name.length
    · simp [h1, h2]
    · simp [h1, h2]
      omega

theorem checkPrice_nil (p : Product) :
    checkPrice p = [] ↔ p.Price ≠ 0 ∧ p.Price ≤ 200 := by
  unfold checkPrice
  by_cases h1 : p.Price = 0
  · simp [h1]
  · by_cases h2 : 200 < p.Price
    · simp [h1, h2]
    · simp [h1, h2]
      omega

theorem checkCurrency_nil (p : Product) :
    checkCurrency p = [] ↔ p.Currency.length = 3 := by
  unfold checkCurrency
  by_cases h1 : p.Currency = ""
  · simp [h1]
  · by_cases h2 : p.Currency.length = 3
    · simp [h1, h2]
    · simp [h1, h2]

theorem checkVendor_nil (p : Product) : checkVendor p = [] ↔ p.Vendor ≠ "" := by
  unfold checkVendor
  by_cases h1 : p.Vendor = "" <;> simp [h1]

/-- C4, as the code has it: a product passes `v.Struct` exactly when its name is
non-empty and at most 10 characters long, its price is non-zero and at most 200,
its currency code has exactly 3 characters and its vendor is non-empty. A zero
price is rejected; the tags put no lower bound on the price. -/
theorem vStruct_passes_iff (p : Product) :
    vStruct p = none ↔
      (p.Name ≠ "" ∧ p.Name.length ≤ 10) ∧ (p.Price ≠ 0 ∧ p.Price ≤ 200) ∧
        p.Currency.length = 3 ∧ p.Vendor ≠ "" := by
  rw [← checkName_nil, ← checkPrice_nil, ← checkCurrency_nil, ← checkVendor_nil]
  unfold vStruct
  simp only [List.append_eq_nil, ite_eq_left_iff, reduceCtorEq, imp_false, not_not, and_assoc]

/-- C4 as stated fails: a product with price -5 passes validation, so a passing
product need not have a positive price and a negative price is not rejected. -/
theorem vStruct_accepts_negative_price :
    vStruct negativePrice = none ∧ ¬ (0 < negativePrice.Price) := by
  decide

/-! ## Token issuance (C9) -/

theorem unix_add_fifteen_minutes (now : Time) :
    (now.Add (Minute * 15)).Unix = now.Unix + 900 := by
  unfold Time.Add Time.Unix Minute
  have h : now.ns + 60 * 1000000000 * 15 = now.ns + 900 * 1000000000 := by ring
  rw [h, Int.add_mul_ediv_right _ _ (by decide)]

/-- C9: whatever the configuration, the clock, the signer and the subject, the
claims that `CreateToken` hands to the signer are exactly the authorization flag
set to true, the subject, and the expiry `issue time + 900` in Unix seconds; the
token returned is the signer's output for those claims under the configured
secret. -/
theorem CreateToken_claims (cfg : Properties) (now : Time)
    (sign : MapClaims → String → Except Error String) (username : String) :
    CreateToken ⟨.ok cfg, now, sign⟩ username =
      match sign [("authozied", .bool true), ("username", .str username),
                  ("exp", .int (now.Unix + 900))] cfg.JwtTokenSecret with
      | .error err => .returned ("", some err)
      | .ok token => .returned (token, none) := by
  simp [CreateToken, GoMap.set, unix_add_fifteen_minutes]

/-! ## Decoding a typed payload is the field-level merge -/

theorem findField_jsonName (f : ProductField) : findField f.jsonName = some f := by
  cases f <;> rfl

theorem GoMap.get_eq_none_of_not_mem {V : Type} (m : List (String × V)) (k : String)
    (h : k ∉ GoMap.keys m) : GoMap.get m k = none := by
  induction m with
  | nil => rfl
  | cons kv rest ih =>
    obtain ⟨k', v⟩ := kv
    simp only [GoMap.keys, List.map_cons, List.mem_cons, not_or] at h
    have hne : ¬ k' = k := fun e => h.1 e.symm
    simp only [GoMap.get, hne, if_false]
    exact ih h.2

theorem decodeElems_of_all_isStr (field : String) (items : List JSON) :
    ∀ old : List String, items.all JSON.isStr = true →
      decodeElems field items old = items.map (fun v => (v.text, none)) := by
  induction items with
  | nil => intro _ _; rfl
  | cons x xs ih =>
    intro old h
    simp only [List.all_cons, Bool.and_eq_true] at h
    have hx : decodeString field x (old.headD "") = (x.text, none) := by
      cases x <;> simp_all [JSON.isStr, decodeString, JSON.text]
    simp only [decodeElems, hx, ih old.tail h.2, List.map_cons]

theorem firstError_replicate_none (n : Nat) : firstError (List.replicate n none) = none := by
  induction n with
  | zero => rfl
  | succ k ih => simpa [List.replicate, firstError] using ih

theorem map_snd_text_none (items : List JSON) :
    (items.map (fun v => (v.text, (none : Option Error)))).map Prod.snd =
      List.replicate items.length none := by
  induction items with
  | nil => rfl
  | cons x xs ih => simp only [List.map_cons, List.length_cons, List.replicate, ih]

theorem decodeStrings_of_all_isStr (field : String) (items : List JSON)
    (old : List String) (h : items.all JSON.isStr = true) :
    decodeStrings field (.arr items) old = (items.map JSON.text, none) := by
  have h0 : decodeStrings field (.arr items) old =
      ((decodeElems field items old).map Prod.fst,
       firstError ((decodeElems field items old).map Prod.snd)) := rfl
  rw [h0, decodeElems_of_all_isStr field items old h]
  have h1 : (items.map (fun v => (v.text, (none : Option Error)))).map Prod.fst =
      items.map JSON.text := by
    simp [List.map_map, Function.comp_def]
  rw [h1, map_snd_text_none, firstError_replicate_none]

theorem decodeStrings_null (field : String) (old : List String) :
    decodeStrings field .null old = ([], none) := rfl

theorem storeField_fits (P : Product) (f : ProductField) (v : JSON)
    (rest : List (String × JSON)) (hfit : fits f v = true)
    (hnot : f.jsonName ∉ GoMap.keys rest) :
    (storeField P f v).stop = none ∧ (storeField P f v).saved = none ∧
      mergedProduct (storeField P f v).product rest =
        mergedProduct P ((f.jsonName, v) :: rest) := by
  have hnone := GoMap.get_eq_none_of_not_mem rest _ hnot
  cases f <;> cases v <;>
    simp_all [fits, storeField, decodeString, decodeInt, decodeBool, mergedProduct, GoMap.get,
      ProductField.jsonName, decodeStrings_of_all_isStr, decodeStrings_null]

theorem decodeMembers_wellTyped (members : List (String × JSON)) :
    ∀ P : Product, (GoMap.keys members).Nodup → wellTyped members = true →
      decodeMembers members P none = (mergedProduct P members, none) := by
  induction members with
  | nil =>
    intro P _ _
    rfl
  | cons kv rest ih =>
    intro P hk hty
    obtain ⟨k, v⟩ := kv
    simp only [GoMap.keys, List.map_cons, List.nodup_cons] at hk
    simp only [wellTyped, List.all_cons, Bool.and_eq_true, List.any_eq_true,
      decide_eq_true_eq] at hty
    obtain ⟨⟨f, _, hkf, hfit⟩, hrest⟩ := hty
    subst hkf
    obtain ⟨h1, h2, h3⟩ := storeField_fits P f v rest hfit hk.1
    have ih' := ih (storeField P f v).product hk.2 (by simpa [wellTyped] using hrest)
    simp only [decodeMembers, findField_jsonName, h1, h2]
    rw [← h3]
    simpa using ih'

/-! ## Partial update (C1, C2, C3) -/

/-- C1, as the code has it: for a stored product `P` fetched under a well-formed
identifier and a payload that names distinct data fields with values of their
types, if the merged product passes validation and the store write succeeds,
`modifyProduct` returns without error the product in which every field named
with a value other than `null` has the payload's value and every other field has
the value of `P`, and that same product is what it writes under the filter
`_id = parsed identifier`, after one `FindOne` under the same filter. -/
theorem modifyProduct_merges {σ : Type} (collection : CollectionAPI σ Product) (s : σ)
    (id : String) (docID : ObjectID) (P : Product) (members : List (String × JSON))
    (hid : ObjectIDFromHex id = .ok docID)
    (hP : collection.FindOne s [("_id", .oid docID)] = .doc P)
    (hkeys : (GoMap.keys members).Nodup)
    (hty : wellTyped members = true)
    (hval : vStruct (mergedProduct P members) = none)
    (hwr : (collection.UpdateOne s [("_id", .oid docID)] (mergedProduct P members)).2 = none) :
    modifyProduct id (some (.obj members)) collection s =
      ⟨mergedProduct P members, none,
        [.findOne [("_id", .oid docID)],
         .updateOne [("_id", .oid docID)] (mergedProduct P members)],
        (collection.UpdateOne s [("_id", .oid docID)] (mergedProduct P members)).1⟩ := by
  have hdec := decodeMembers_wellTyped members P hkeys hty
  generalize hu : collection.UpdateOne s [("_id", .oid docID)] (mergedProduct P members) = u at hwr
  obtain ⟨s', e⟩ := u
  simp only at hwr
  subst hwr
  simp only [modifyProduct, hid, hP, SingleResult.Decode, jsonDecode, hdec, hval, hu]

/-- The spec's example of C1: stored name `A`, price 10, currency `USD`, vendor
`V`, payload `price: 20`; the product returned and written has price 20 and the
other fields as stored. -/
theorem modifyProduct_merges_witness :
    modifyProduct "aaaaaaaaaaaaaaaaaaaaaaaa" (some (.obj [("price", .num 20)])) memProducts
        [productA] =
      ⟨{ productA with Price := 20 }, none,
        [.findOne [("_id", .oid idA)],
         .updateOne [("_id", .oid idA)] { productA with Price := 20 }],
        [{ productA with Price := 20 }]⟩ :=
  modifyProduct_merges memProducts [productA] "aaaaaaaaaaaaaaaaaaaaaaaa" idA productA
    [("price", .num 20)] (by rfl) (by rfl) (by decide) (by rfl) (by decide) (by rfl)

/-- C1 as stated fails on a `null` value: with the payload `price: null` the
update succeeds, the payload names the field `price`, and the product returned
keeps the stored price 10 instead of the payload's value. -/
theorem modifyProduct_null_keeps_stored :
    (modifyProduct "aaaaaaaaaaaaaaaaaaaaaaaa" (some (.obj [("price", .null)])) memProducts
        [productA]).err = none ∧
      (modifyProduct "aaaaaaaaaaaaaaaaaaaaaaaa" (some (.obj [("price", .null)])) memProducts
        [productA]).val.Price = 10 ∧
      ¬ NamedFieldsTakePayloadValue productA [("price", .null)]
        (modifyProduct "aaaaaaaaaaaaaaaaaaaaaaaa" (some (.obj [("price", .null)])) memProducts
          [productA]).val := by
  refine ⟨by decide, by decide, ?_⟩
  intro h
  have hp := h .Price
  simp [GoMap.get, ProductField.jsonName, Product.fieldValue] at hp

/-- C2: when `modifyProduct` fails at parsing the identifier, at fetching and
decoding the current document, at decoding the payload or at validating the
merged product, it returns an error, none of its store calls is an `UpdateOne`,
and the store state is the one it started from; when the identifier does not
parse it makes no store call at all. -/
theorem modifyProduct_failure_writes_nothing {σ : Type} (id : String)
    (reqBody : Option JSON) (collection : CollectionAPI σ Product) (s : σ)
    (h : failsBeforeWrite id reqBody collection s = true) :
    (modifyProduct id reqBody collection s).err ≠ none ∧
      (modifyProduct id reqBody collection s).calls.all (fun c => !c.isUpdateOne) = true ∧
      (modifyProduct id reqBody collection s).state = s ∧
      ((∀ docID, ObjectIDFromHex id ≠ .ok docID) →
        (modifyProduct id reqBody collection s).calls = []) := by
  unfold failsBeforeWrite at h
  unfold modifyProduct
  cases hid : ObjectIDFromHex id with
  | error e => simp
  | ok docID =>
    simp only [hid] at h
    simp only
    generalize (collection.FindOne s [("_id", .oid docID)]).Decode Product.zero = fetched at h
    obtain ⟨p1, e1⟩ := fetched
    cases e1 with
    | some e => simp [Call.isUpdateOne]
    | none =>
      simp only
      generalize jsonDecode reqBody p1 = merged at h
      obtain ⟨p2, e2⟩ := merged
      cases e2 with
      | some e => simp [Call.isUpdateOne]
      | none =>
        simp only
        cases hv : vStruct p2 with
        | some e => simp [Call.isUpdateOne]
        | none => simp [hv] at h

/-- The spec's example of C2: the payload `product_name: ""` blanks a required
field; validation fails, only `FindOne` is called and the stored document is
unchanged. -/
theorem modifyProduct_failure_writes_nothing_witness :
    (modifyProduct "aaaaaaaaaaaaaaaaaaaaaaaa" (some (.obj [("product_name", .str "")]))
        memProducts [productA]).err = some (.ValidationErrors [⟨"Name", "required"⟩]) ∧
      (modifyProduct "aaaaaaaaaaaaaaaaaaaaaaaa" (some (.obj [("product_name", .str "")]))
        memProducts [productA]).calls.all (fun c => !c.isUpdateOne) = true ∧
      (modifyProduct "aaaaaaaaaaaaaaaaaaaaaaaa" (some (.obj [("product_name", .str "")]))
        memProducts [productA]).state = [productA] :=
  ⟨by decide,
   (modifyProduct_failure_writes_nothing "aaaaaaaaaaaaaaaaaaaaaaaa"
      (some (.obj [("product_name", .str "")])) memProducts [productA] (by decide)).2.1,
   (modifyProduct_failure_writes_nothing "aaaaaaaaaaaaaaaaaaaaaaaa"
      (some (.obj [("product_name", .str "")])) memProducts [productA] (by decide)).2.2.1⟩

/-- C3 fails on the code: for the stored product with identifier `aaaa...` and
a payload that carries `_id: "bbbb..."`, the document that `modifyProduct` hands
to `UpdateOne` and the product it returns carry the payload's identifier, not
the stored one. -/
theorem modifyProduct_payload_id_replaces_stored :
    (modifyProduct "aaaaaaaaaaaaaaaaaaaaaaaa"
        (some (.obj [("_id", .str "bbbbbbbbbbbbbbbbbbbbbbbb")])) memProducts [productA]).calls =
        [.findOne [("_id", .oid idA)],
         .updateOne [("_id", .oid idA)] { productA with ID := idB }] ∧
      (modifyProduct "aaaaaaaaaaaaaaaaaaaaaaaa"
        (some (.obj [("_id", .str "bbbbbbbbbbbbbbbbbbbbbbbb")])) memProducts [productA]).val.ID =
        idB ∧
      idB ≠ productA.ID := by
  decide

/-! ## The filter builder (C5) -/

theorem GoMap.set_of_not_mem {V : Type} (m : List (String × V)) (k : String) (v : V)
    (h : k ∉ GoMap.keys m) : GoMap.set m k v = m ++ [(k, v)] := by
  induction m with
  | nil => rfl
  | cons kv rest ih =>
    obtain ⟨k', v'⟩ := kv
    simp only [GoMap.keys, List.map_cons, List.mem_cons, not_or] at h
    have hne : ¬ k' = k := fun e => h.1 e.symm
    simp only [GoMap.set, hne, if_false, List.cons_append]
    rw [ih h.2]

theorem rangeFilter_eq (q : List (String × List String)) :
    ∀ acc : Filter, (GoMap.keys q).Nodup → (∀ kv ∈ q, kv.2 ≠ []) →
      (∀ k ∈ GoMap.keys q, k ∉ GoMap.keys acc) →
      rangeFilter q acc = some (acc ++ q.map plainClause) := by
  induction q with
  | nil =>
    intro acc _ _ _
    simp [rangeFilter]
  | cons kv rest ih =>
    intro acc hk hv hd
    obtain ⟨k, v⟩ := kv
    simp only [GoMap.keys, List.map_cons, List.nodup_cons] at hk
    cases v with
    | nil => exact absurd rfl (hv (k, []) (List.mem_cons_self _ _))
    | cons v0 vs =>
      have hkacc : k ∉ GoMap.keys acc := hd k (by simp [GoMap.keys])
      simp only [rangeFilter, GoMap.set_of_not_mem acc k _ hkacc]
      rw [ih (acc ++ [(k, FilterValue.str v0)]) hk.2
        (fun kv h => hv kv (List.mem_cons_of_mem _ h))]
      · simp [plainClause, firstValue]
      · intro k' hk' hmem
        simp only [GoMap.keys, List.map_append, List.map_cons, List.map_nil, List.mem_append,
          List.mem_singleton] at hmem
        rcases hmem with hmem | hmem
        · exact hd k' (by simp only [GoMap.keys, List.map_cons, List.mem_cons]
                          exact Or.inr hk') hmem
        · subst hmem
          exact hk.1 hk'

theorem get_map_plainClause (q : List (String × List String)) (k : String) :
    GoMap.get (q.map plainClause) k =
      (GoMap.get q k).map (fun v => FilterValue.str (firstValue v)) := by
  induction q with
  | nil => rfl
  | cons kv rest ih =>
    obtain ⟨k', v⟩ := kv
    by_cases h : k' = k <;> simp [GoMap.get, plainClause, h, ih]

theorem set_map_plainClause (docID : ObjectID) (q : List (String × List String)) :
    (GoMap.keys q).Nodup → "_id" ∈ GoMap.keys q →
      GoMap.set (q.map plainClause) "_id" (.oid docID) = q.map (clauseWithID docID) := by
  induction q with
  | nil =>
    intro _ h
    simp [GoMap.keys] at h
  | cons kv rest ih =>
    intro hk hmem
    obtain ⟨k', v⟩ := kv
    simp only [GoMap.keys, List.map_cons, List.nodup_cons] at hk
    by_cases h : k' = "_id"
    · subst h
      simp only [List.map_cons, plainClause, GoMap.set, if_true, clauseWithID]
      congr 1
      apply List.map_congr_left
      intro kv hkv
      have hne : ¬ kv.1 = "_id" := by
        intro e
        apply hk.1
        rw [← e]
        exact List.mem_map_of_mem Prod.fst hkv
      simp [plainClause, clauseWithID, hne]
    · have hmem' : "_id" ∈ GoMap.keys rest := by
        simp only [GoMap.keys, List.map_cons, List.mem_cons] at hmem
        rcases hmem with e | hm
        · exact absurd e.symm h
        · exact hm
      simp only [List.map_cons, plainClause, GoMap.set, h, if_false, clauseWithID]
      congr 1
      exact ih hk.2 hmem'

theorem mem_keys_of_get {V : Type} (m : List (String × V)) (k : String) (v : V)
    (h : GoMap.get m k = some v) : k ∈ GoMap.keys m := by
  induction m with
  | nil => simp [GoMap.get] at h
  | cons kv rest ih =>
    obtain ⟨k', v'⟩ := kv
    by_cases e : k' = k
    · simp [GoMap.keys, e]
    · simp only [GoMap.get, e, if_false] at h
      simp only [GoMap.keys, List.map_cons, List.mem_cons]
      exact Or.inr (ih h)

theorem findQuery_calls {σ : Type} (collection : CollectionAPI σ Product) (s : σ)
    (filter : Filter) : (findQuery collection s filter).calls = [.find filter] := by
  unfold findQuery
  cases collection.Find s filter with
  | error e => rfl
  | ok cursor =>
    simp only
    cases cursor.err <;> rfl

/-- C5: for a query map with distinct keys and non-empty value lists,
`findProducts` returns (it does not panic), and
* when the key `_id` is present and its first value is not the hex text of an
  object identifier, it returns the parse error and empty results without any
  store call;
* when `_id` is present and parses, its one store call is `Find` with the filter
  that maps `_id` to the parsed identifier and every other key of the query to
  its first value, and it returns what that query yields;
* when `_id` is absent, its one store call is `Find` with the filter that maps
  every key of the query to its first value, and it returns what that query
  yields. -/
theorem findProducts_filter {σ : Type} (q : List (String × List String))
    (collection : CollectionAPI σ Product) (s : σ)
    (hk : (GoMap.keys q).Nodup) (hv : ∀ kv ∈ q, kv.2 ≠ []) :
    ∃ r, findProducts q collection s = some r ∧
      match GoMap.get q "_id" with
      | none =>
        r = findQuery collection s (q.map plainClause) ∧
          r.calls = [.find (q.map plainClause)]
      | some v =>
        match ObjectIDFromHex (firstValue v) with
        | .error e => r.err = some e ∧ r.val = [] ∧ r.calls = [] ∧ r.state = s
        | .ok docID =>
          r = findQuery collection s (q.map (clauseWithID docID)) ∧
            r.calls = [.find (q.map (clauseWithID docID))] := by
  have hr := rangeFilter_eq q [] hk hv (by simp [GoMap.keys])
  simp only [List.nil_append] at hr
  unfold findProducts
  simp only [hr, get_map_plainClause]
  cases hg : GoMap.get q "_id" with
  | none => exact ⟨_, rfl, rfl, findQuery_calls _ _ _⟩
  | some v =>
    simp only [Option.map_some']
    cases hp : ObjectIDFromHex (firstValue v) with
    | error e => exact ⟨_, rfl, rfl, rfl, rfl, rfl⟩
    | ok docID =>
      refine ⟨_, rfl, ?_⟩
      rw [findQuery_calls, set_map_plainClause docID q hk (mem_keys_of_get q _ v hg)]
      exact ⟨rfl, rfl⟩

/-- The spec's examples of C5: the query `vendor=V&extraneous=X` is looked up with
exactly those two equality clauses; the empty query with the empty filter; a
malformed `_id` fails before any store call; a well-formed `_id` is looked up as
the parsed identifier, and values after the first are ignored. -/
theorem findProducts_filter_witness :
    (∃ r, findProducts [("vendor", ["V"]), ("extraneous", ["X"])] memProducts [productA] =
        some r ∧
      r.calls = [.find [("vendor", .str "V"), ("extraneous", .str "X")]]) ∧
    (∃ r, findProducts [] memProducts [productA] = some r ∧ r.calls = [.find []]) ∧
    (∃ r, findProducts [("_id", ["malformed"])] memProducts [productA] = some r ∧
      r.err = some .ErrInvalidHex ∧ r.val = [] ∧ r.calls = [] ∧ r.state = [productA]) ∧
    (∃ r, findProducts [("_id", ["aaaaaaaaaaaaaaaaaaaaaaaa", "x"]), ("vendor", ["V", "W"])]
        memProducts [productA] = some r ∧
      r.calls = [.find [("_id", .oid idA), ("vendor", .str "V")]]) :=
  ⟨(findProducts_filter [("vendor", ["V"]), ("extraneous", ["X"])] memProducts [productA]
      (by decide) (by decide)).imp fun _ h => ⟨h.1, h.2.2⟩,
   (findProducts_filter [] memProducts [productA] (by decide) (by decide)).imp
      fun _ h => ⟨h.1, h.2.2⟩,
   findProducts_filter [("_id", ["malformed"])] memProducts [productA] (by decide) (by decide),
   (findProducts_filter [("_id", ["aaaaaaaaaaaaaaaaaaaaaaaa", "x"]), ("vendor", ["V", "W"])]
      memProducts [productA] (by decide) (by decide)).imp fun _ h => ⟨h.1, h.2.2⟩⟩

/-! ## Creating products (C10) -/

theorem validateAll_of_forall (products : List Product)
    (h : ∀ p ∈ products, vStruct p = none) : validateAll products = none := by
  induction products with
  | nil => rfl
  | cons p rest ih =>
    have hp : vStruct p = none := h p (List.mem_cons_self _ _)
    simp only [validateAll, ProductValidator.Validate, hp]
    exact ih (fun x hx => h x (List.mem_cons_of_mem _ hx))

theorem assignIDs_length (NewObjectID : Nat → ObjectID) (products : List Product) :
    ∀ n, (assignIDs NewObjectID products n).length = products.length := by
  induction products with
  | nil => intro n; rfl
  | cons p rest ih =>
    intro n
    simp only [assignIDs, List.length_cons, ih (n + 1)]

theorem insertLoop_of_success {σ : Type} (NewObjectID : Nat → ObjectID)
    (collection : CollectionAPI σ Product) (products : List Product) :
    ∀ (n : Nat) (s : σ) (insertedIDs : List InsertedID) (calls : List (Call Product)),
      everyInsertSucceeds NewObjectID collection products n s = true →
      (insertLoop NewObjectID collection products n s insertedIDs calls).err = none ∧
      (insertLoop NewObjectID collection products n s insertedIDs calls).calls =
        calls ++ (assignIDs NewObjectID products n).map Call.insertOne ∧
      (insertLoop NewObjectID collection products n s insertedIDs calls).state =
        storeAfterInserts collection (assignIDs NewObjectID products n) s ∧
      ∃ ids, (insertLoop NewObjectID collection products n s insertedIDs calls).val =
          insertedIDs ++ ids ∧
        ids.map Except.ok = insertAnswers collection (assignIDs NewObjectID products n) s ∧
        List.Forall₂ (fun d id => ∃ s', (collection.InsertOne s' d).2 = .ok id)
          (assignIDs NewObjectID products n) ids := by
  induction products with
  | nil =>
    intro n s insertedIDs calls _
    exact ⟨rfl, by simp [insertLoop, assignIDs], rfl, [], by simp [insertLoop], rfl, by
      simp [assignIDs]⟩
  | cons p rest ih =>
    intro n s insertedIDs calls h
    simp only [everyInsertSucceeds] at h
    cases hins : collection.InsertOne s { p with ID := NewObjectID n } with
    | mk s' res =>
      cases res with
      | error e => simp [hins] at h
      | ok id =>
        simp only [hins] at h
        obtain ⟨h1, h2, hst, ids, h3, hans, h4⟩ :=
          ih (n + 1) s' (insertedIDs ++ [id])
            (calls ++ [.insertOne { p with ID := NewObjectID n }]) h
        simp only [insertLoop, hins, assignIDs, List.map_cons, storeAfterInserts,
          insertAnswers]
        refine ⟨h1, ?_, hst, id :: ids, ?_, ?_, ?_⟩
        · rw [h2]
          simp
        · rw [h3]
          simp
        · rw [List.map_cons, hans]
        · exact List.Forall₂.cons ⟨s, by rw [hins]⟩ h4

/-- C10: for every list of products that each pass validation, when every store
insert of the run succeeds, `CreateProducts` returns no error and answers with
status 201 and a list of inserted identifiers that has one entry per product,
in input order. Its store calls are exactly one `InsertOne` per product, in
input order, each product carrying the newly generated identifier in place of
the request's; the store it leaves is the one that those inserts produce one
after the other, and the `i`-th entry of the body is the store's answer to the
`i`-th of them. -/
theorem CreateProducts_created {σ : Type} (NewObjectID : Nat → ObjectID)
    (collection : CollectionAPI σ Product) (s : σ) (products : List Product)
    (hvalid : ∀ p ∈ products, vStruct p = none)
    (hins : everyInsertSucceeds NewObjectID collection products 0 s = true) :
    ∃ ids,
      (CreateProducts (.ok products) NewObjectID collection s).val = some ⟨201, ids⟩ ∧
      (CreateProducts (.ok products) NewObjectID collection s).err = none ∧
      ids.length = products.length ∧
      (CreateProducts (.ok products) NewObjectID collection s).calls =
        (assignIDs NewObjectID products 0).map Call.insertOne ∧
      List.Forall₂ (fun d id => ∃ s', (collection.InsertOne s' d).2 = .ok id)
        (assignIDs NewObjectID products 0) ids ∧
      (CreateProducts (.ok products) NewObjectID collection s).state =
        storeAfterInserts collection (assignIDs NewObjectID products 0) s ∧
      ids.map Except.ok = insertAnswers collection (assignIDs NewObjectID products 0) s := by
  obtain ⟨h1, h2, hst, ids, h3, hans, h4⟩ :=
    insertLoop_of_success NewObjectID collection products 0 s [] [] hins
  have hlen := assignIDs_length NewObjectID products 0
  refine ⟨ids, ?_, ?_, ?_, ?_, h4, ?_, hans⟩
  · simp only [CreateProducts, validateAll_of_forall products hvalid, insertProducts, h1, h3,
      List.nil_append]
  · simp only [CreateProducts, validateAll_of_forall products hvalid, insertProducts, h1]
  · rw [← hlen]
    exact h4.length_eq.symm
  · simp only [CreateProducts, validateAll_of_forall products hvalid, insertProducts, h1, h2,
      List.nil_append]
  · simp only [CreateProducts, validateAll_of_forall products hvalid, insertProducts, h1, hst]

/-- The test `test create product`: the one-element list with the product
`vivo` is answered with status 201 and the one identifier generated for it, and
the store then holds the product under that identifier. -/
theorem CreateProducts_created_witness :
    ∃ ids,
      (CreateProducts (.ok [vivo]) countingIDs memProducts []).val = some ⟨201, ids⟩ ∧
      (CreateProducts (.ok [vivo]) countingIDs memProducts []).err = none ∧
      ids.length = 1 ∧
      (CreateProducts (.ok [vivo]) countingIDs memProducts []).calls =
        [.insertOne { vivo with ID := countingIDs 0 }] ∧
      List.Forall₂ (fun d id => ∃ s', (memProducts.InsertOne s' d).2 = .ok id)
        [{ vivo with ID := countingIDs 0 }] ids ∧
      (CreateProducts (.ok [vivo]) countingIDs memProducts []).state =
        [{ vivo with ID := countingIDs 0 }] ∧
      ids.map Except.ok = [(Except.ok (countingIDs 0) : Except Error InsertedID)] :=
  CreateProducts_created countingIDs memProducts [] [vivo] (by decide) (by decide)

/-! ## Registration and login (C6, C7, C8) -/

theorem insertUser_of_found {σ : Type} (bcrypt : Bcrypt) (user u : User)
    (collection : CollectionAPI σ User) (s : σ)
    (hfound : collection.FindOne s [("username", .str user.Email)] = .doc u)
    (hne : u.Email ≠ "") :
    insertUser bcrypt user collection s =
      ⟨none, some (.HTTPError 400 "User already exists"),
        [.findOne [("username", .str user.Email)]], s⟩ := by
  simp [insertUser, hfound, SingleResult.Decode, hne]

theorem userStruct_email_nonempty (isEmail : String → Bool) (u : User)
    (h : userStruct isEmail u = none) : u.Email ≠ "" := by
  intro he
  simp [userStruct, he] at h

theorem userMatches_username (e : String) (u : User) :
    userMatches [("username", .str e)] u = decide (u.Email = e) := by
  simp [userMatches]

theorem find_username_none (s : List User) (e : String) (h : e ∉ s.map User.Email) :
    s.find? (userMatches [("username", .str e)]) = none := by
  rw [List.find?_eq_none]
  intro x hx
  rw [userMatches_username]
  simp only [decide_eq_true_eq]
  intro hxe
  exact h (hxe ▸ List.mem_map_of_mem User.Email hx)

theorem find_username_appended (s : List User) (e d : String) (h : e ∉ s.map User.Email) :
    (s ++ [User.mk e d]).find? (userMatches [("username", .str e)]) = some (User.mk e d) := by
  rw [List.find?_append, find_username_none s e h]
  simp [userMatches_username]

/-- C6: when the store answers the lookup by `username = e` with a record of
identifier `e`, registering `e` again with any secret is rejected without
writing.
* `insertUser`, called with an identifier `e` that is not empty (what the tag
  `required` grants for every user that `CreateUser`, its only caller, hands
  over), returns the error 400 `User already exists`; its only store call is
  that lookup, so it never calls `InsertOne`, and it leaves the store as it was.
* `CreateUser`, for every bound request whatever its identifier and secret,
  returns an error, writes no response, never calls `InsertOne` and leaves the
  store as it was; when the request passes validation, the error is the one of
  `insertUser` above.
* On the store with the unique index: registering a new `e` and then `e` again
  with any secret succeeds first, is rejected second, and leaves exactly one
  record for `e`. -/
theorem insertUser_rejects_duplicate (bcrypt : Bcrypt) (user : User) :
    (user.Email ≠ "" →
      ∀ {σ : Type} (collection : CollectionAPI σ User) (s : σ) (u : User),
      collection.FindOne s [("username", .str user.Email)] = .doc u →
      u.Email = user.Email →
      insertUser bcrypt user collection s =
        ⟨none, some (.HTTPError 400 "User already exists"),
          [.findOne [("username", .str user.Email)]], s⟩) ∧
    (∀ {σ : Type} (isEmail : String → Bool) (collection : CollectionAPI σ User) (s : σ)
      (u : User),
      collection.FindOne s [("username", .str user.Email)] = .doc u →
      u.Email = user.Email →
      (CreateUser isEmail bcrypt (.ok user) collection s).val = none ∧
      (CreateUser isEmail bcrypt (.ok user) collection s).err ≠ none ∧
      (CreateUser isEmail bcrypt (.ok user) collection s).calls.all
        (fun c => !c.isInsertOne) = true ∧
      (CreateUser isEmail bcrypt (.ok user) collection s).state = s ∧
      (userStruct isEmail user = none →
        CreateUser isEmail bcrypt (.ok user) collection s =
          ⟨none, some (.HTTPError 400 "User already exists"),
            [.findOne [("username", .str user.Email)]], s⟩)) ∧
    (user.Email ≠ "" →
      ∀ (s : List User) (secret digest : String),
      user.Email ∉ s.map User.Email →
      bcrypt.GenerateFromPassword user.Password 8 = .ok digest →
      (insertUser bcrypt user memUsers s).err = none ∧
      (insertUser bcrypt user memUsers s).state = s ++ [User.mk user.Email digest] ∧
      insertUser bcrypt (User.mk user.Email secret) memUsers
          (insertUser bcrypt user memUsers s).state =
        ⟨none, some (.HTTPError 400 "User already exists"),
          [.findOne [("username", .str user.Email)]],
          s ++ [User.mk user.Email digest]⟩ ∧
      ((s ++ [User.mk user.Email digest]).filter (fun u => u.Email = user.Email)).length = 1) := by
  refine ⟨?_, ?_, ?_⟩
  · intro hne σ collection s u hfound hu
    exact insertUser_of_found bcrypt user u collection s hfound (hu ▸ hne)
  · intro σ isEmail collection s u hfound hu
    cases hv : userStruct isEmail user with
    | some e => simp [CreateUser, hv]
    | none =>
      have hne := userStruct_email_nonempty isEmail user hv
      have hdup := insertUser_of_found bcrypt user u collection s hfound (hu ▸ hne)
      simp [CreateUser, hv, hdup, Call.isInsertOne]
  · intro hne s secret digest hnew hgen
    have hnone := find_username_none s user.Email hnew
    have hcontains : ¬ ∃ a ∈ s, a.Email = user.Email := by
      simpa using hnew
    have hfirst : insertUser bcrypt user memUsers s =
        ⟨some ⟨List.replicate 11 0 ++ [s.length % 256]⟩, none,
          [.findOne [("username", .str user.Email)],
           .insertOne (User.mk user.Email digest)],
          s ++ [User.mk user.Email digest]⟩ := by
      simp [insertUser, memUsers, hnone, SingleResult.Decode, User.zero, hgen, hcontains]
    have hfound : memUsers.FindOne (s ++ [User.mk user.Email digest])
        [("username", .str user.Email)] = .doc (User.mk user.Email digest) := by
      simp only [memUsers, find_username_appended s user.Email digest hnew]
    refine ⟨by rw [hfirst], by rw [hfirst], ?_, ?_⟩
    · rw [hfirst]
      exact insertUser_of_found bcrypt (User.mk user.Email secret) (User.mk user.Email digest)
        memUsers _ hfound hne
    · have hfil : s.filter (fun u => decide (u.Email = user.Email)) = [] := by
        rw [List.filter_eq_nil_iff]
        intro x hx
        simp only [decide_eq_true_eq]
        intro hxe
        exact hnew (hxe ▸ List.mem_map_of_mem User.Email hx)
      simp [List.filter_append, hfil]

/-- The spec's example of C6: `a@b.com` registered twice. The second call is
rejected with `User already exists` after the lookup alone, by `insertUser` and
by `CreateUser` alike, and the store holds one record for `a@b.com`. -/
theorem insertUser_rejects_duplicate_witness :
    insertUser toyBcrypt (User.mk "a@b.com" "12345678") memUsers [storedAB] =
        ⟨none, some (.HTTPError 400 "User already exists"),
          [.findOne [("username", .str "a@b.com")]], [storedAB]⟩ ∧
      CreateUser (fun _ => true) toyBcrypt (.ok (User.mk "a@b.com" "12345678")) memUsers
          [storedAB] =
        ⟨none, some (.HTTPError 400 "User already exists"),
          [.findOne [("username", .str "a@b.com")]], [storedAB]⟩ ∧
      (([] ++ [User.mk "a@b.com" "$2a$08$12345678"]).filter
        (fun u : User => u.Email = "a@b.com")).length = 1 :=
  ⟨(insertUser_rejects_duplicate toyBcrypt (User.mk "a@b.com" "12345678")).1 (by decide)
      memUsers [storedAB] storedAB (by rfl) (by rfl),
   ((insertUser_rejects_duplicate toyBcrypt (User.mk "a@b.com" "12345678")).2.1
      (fun _ => true) memUsers [storedAB] storedAB (by rfl) (by rfl)).2.2.2.2 (by decide),
   ((insertUser_rejects_duplicate toyBcrypt (User.mk "a@b.com" "12345678")).2.2 (by decide)
      [] "another secret" "$2a$08$12345678" (by decide) (by rfl)).2.2.2⟩

/-- C7, as the code has it by design: registration of an existing non-empty
identifier fails with status 400; a registration lookup that fails with any
error other than "no documents" fails with status 500; login with an unknown
identifier fails with status 404; login with a wrong secret fails with status
401. -/
theorem auth_failure_statuses {σ : Type} (bcrypt : Bcrypt) (user : User)
    (collection : CollectionAPI σ User) (s : σ) :
    (∀ u, user.Email ≠ "" →
      collection.FindOne s [("username", .str user.Email)] = .doc u →
      u.Email = user.Email →
      (insertUser bcrypt user collection s).err.map Error.status = some 400) ∧
    (∀ d e, collection.FindOne s [("username", .str user.Email)] = .failed d e →
      e ≠ .ErrNoDocuments →
      (insertUser bcrypt user collection s).err.map Error.status = some 500) ∧
    (collection.FindOne s [("username", .str user.Email)] = .noDocuments →
      (authenticateUser bcrypt user collection s).err.map Error.status = some 404) ∧
    (∀ u, collection.FindOne s [("username", .str user.Email)] = .doc u →
      isCredValid bcrypt user.Password u.Password = false →
      (authenticateUser bcrypt user collection s).err.map Error.status = some 401) := by
  refine ⟨?_, ?_, ?_, ?_⟩
  · intro u hne hfound hu
    rw [insertUser_of_found bcrypt user u collection s hfound (hu ▸ hne)]
    rfl
  · intro d e hfound he
    simp [insertUser, hfound, SingleResult.Decode, he, Error.status]
  · intro hfound
    simp [authenticateUser, hfound, SingleResult.Decode, Error.status]
  · intro u hfound hcred
    simp [authenticateUser, hfound, SingleResult.Decode, hcred, Error.status]

/-- Instances of C7 on the in-memory store: a second registration of `a@b.com`
has status 400, a login with a wrong secret has status 401, a login with an
unknown identifier has status 404. -/
theorem auth_failure_statuses_witness :
    (insertUser toyBcrypt (User.mk "a@b.com" "12345678") memUsers [storedAB]).err.map
        Error.status = some 400 ∧
      (authenticateUser toyBcrypt (User.mk "a@b.com" "87654321") memUsers [storedAB]).err.map
        Error.status = some 401 ∧
      (authenticateUser toyBcrypt (User.mk "a@b.com" "12345678") memUsers []).err.map
        Error.status = some 404 :=
  ⟨(auth_failure_statuses toyBcrypt (User.mk "a@b.com" "12345678") memUsers [storedAB]).1
      storedAB (by decide) (by rfl) (by rfl),
   (auth_failure_statuses toyBcrypt (User.mk "a@b.com" "87654321") memUsers [storedAB]).2.2.2
      storedAB (by rfl) (by decide),
   (auth_failure_statuses toyBcrypt (User.mk "a@b.com" "12345678") memUsers []).2.2.1
      (by rfl)⟩

/-- C7 as stated fails: registering the existing identifier `a@b.com` is
answered with status 400, not 409, and a login whose lookup fails with a driver
error is answered with status 422, a client error, not a server error. -/
theorem auth_statuses_differ :
    (insertUser toyBcrypt (User.mk "a@b.com" "12345678") memUsers [storedAB]).err.map
        Error.status = some 400 ∧
      (authenticateUser toyBcrypt (User.mk "a@b.com" "12345678") faultyUsers ()).err.map
        Error.status = some 422 := by
  decide

/-- C8, as the code has it: the `User` that `authenticateUser` returns on success
has an empty secret and the identifier of the stored record, and the one it
returns on the not-found error is the empty `User`; every response that
`AuthUser` writes has status 200 and a body with an empty secret and the stored
record's identifier, and whenever `AuthUser` returns an error it writes no
response. -/
theorem login_output_without_digest {σ : Type} (isEmail : String → Bool) (bcrypt : Bcrypt)
    (env : TokenEnv) (collection : CollectionAPI σ User) (s : σ) :
    (∀ reqUser : User,
      ((authenticateUser bcrypt reqUser collection s).err = none →
        (authenticateUser bcrypt reqUser collection s).val.Password = "" ∧
        ∃ u, collection.FindOne s [("username", .str reqUser.Email)] = .doc u ∧
          (authenticateUser bcrypt reqUser collection s).val.Email = u.Email) ∧
      (collection.FindOne s [("username", .str reqUser.Email)] = .noDocuments →
        (authenticateUser bcrypt reqUser collection s).val = User.zero)) ∧
    (∀ bind ret, AuthUser isEmail bcrypt env bind collection s = .returned ret →
      (ret.err ≠ none → ret.val = none) ∧
      (∀ resp, ret.val = some resp →
        resp.status = 200 ∧ resp.body.Password = "" ∧
        ∃ reqUser u, bind = .ok reqUser ∧
          collection.FindOne s [("username", .str reqUser.Email)] = .doc u ∧
          resp.body.Email = u.Email)) := by
  have hauth : ∀ reqUser : User,
      (authenticateUser bcrypt reqUser collection s).err = none →
        (authenticateUser bcrypt reqUser collection s).val.Password = "" ∧
        ∃ u, collection.FindOne s [("username", .str reqUser.Email)] = .doc u ∧
          (authenticateUser bcrypt reqUser collection s).val.Email = u.Email := by
    intro reqUser
    cases hfound : collection.FindOne s [("username", .str reqUser.Email)] with
    | doc u =>
      by_cases hcred : isCredValid bcrypt reqUser.Password u.Password = true
      · simp [authenticateUser, hfound, SingleResult.Decode, hcred]
      · simp [authenticateUser, hfound, SingleResult.Decode, hcred]
    | noDocuments => simp [authenticateUser, hfound, SingleResult.Decode]
    | failed d e =>
      by_cases he : e = .ErrNoDocuments
      · simp [authenticateUser, hfound, SingleResult.Decode, he]
      · simp [authenticateUser, hfound, SingleResult.Decode, he]
  refine ⟨fun reqUser => ⟨hauth reqUser, ?_⟩, ?_⟩
  · intro hfound
    simp [authenticateUser, hfound, SingleResult.Decode]
  · intro bind ret hret
    unfold AuthUser at hret
    cases bind with
    | error e =>
      simp only [Run.returned.injEq] at hret
      subst hret
      simp
    | ok user =>
      simp only at hret
      cases hv : userStruct isEmail user with
      | some e =>
        simp only [hv, Run.returned.injEq] at hret
        subst hret
        simp
      | none =>
        simp only [hv] at hret
        cases herr : (authenticateUser bcrypt user collection s).err with
        | some e =>
          simp only [herr, Run.returned.injEq] at hret
          subst hret
          simp
        | none =>
          simp only [herr] at hret
          obtain ⟨hpw, u, hfound, hemail⟩ := hauth user herr
          cases htok : CreateToken env (authenticateUser bcrypt user collection s).val.Email with
          | exited m => simp [htok] at hret
          | returned res =>
            obtain ⟨token, terr⟩ := res
            cases terr with
            | some e =>
              simp only [htok, Run.returned.injEq] at hret
              subst hret
              simp
            | none =>
              simp only [htok, Run.returned.injEq] at hret
              subst hret
              refine ⟨by simp, ?_⟩
              intro resp hresp
              simp only [Option.some.injEq] at hresp
              subst hresp
              exact ⟨rfl, rfl, user, u, rfl, hfound, hemail⟩

/-- The spec's login example for C8: `a@b.com` logs in with the right secret; the
`User` returned has an empty secret and the stored identifier, and the response
written is 200 with the body `a@b.com` and an empty secret. -/
theorem login_output_without_digest_witness :
    ((authenticateUser toyBcrypt (User.mk "a@b.com" "12345678") memUsers [storedAB]).val.Password
        = "" ∧
      ∃ u, memUsers.FindOne [storedAB] [("username", .str "a@b.com")] = .doc u ∧
        (authenticateUser toyBcrypt (User.mk "a@b.com" "12345678") memUsers [storedAB]).val.Email
          = u.Email) ∧
    AuthUser (fun _ => true) toyBcrypt toyEnv (.ok (User.mk "a@b.com" "12345678")) memUsers
        [storedAB] =
      .returned ⟨some ⟨200, "Bearer token-for-a@b.com", User.mk "a@b.com" ""⟩, none,
        [.findOne [("username", .str "a@b.com")]], [storedAB]⟩ :=
  ⟨((login_output_without_digest (fun _ => true) toyBcrypt toyEnv memUsers [storedAB]).1
      (User.mk "a@b.com" "12345678")).1 (by decide),
   by rfl⟩

/-- C8 as stated fails: alongside the invalid-credentials error, `authenticateUser`
returns the stored record, whose secret field is the stored digest. -/
theorem authenticateUser_returns_digest_on_mismatch :
    (authenticateUser toyBcrypt (User.mk "a@b.com" "87654321") memUsers [storedAB]).err =
        some (.HTTPError 401 "Credentials invalid") ∧
      (authenticateUser toyBcrypt (User.mk "a@b.com" "87654321") memUsers [storedAB]).val.Password =
        "$2a$08$12345678" ∧
      (authenticateUser toyBcrypt (User.mk "a@b.com" "87654321") memUsers [storedAB]).val.Password ≠
        "" := by
  decide

end Tronicscorp
